import Mathlib

/-!
Verification of the resource retrieval engine of cloud-custodian
(`c7n/query.py`): `ResourceQuery`, the describe/config `Source`
implementations, `QueryResourceManager`, and the scalar/batch
augmentation helpers, shallowly embedded in Lean 4.

Python dictionaries of provider data are modelled by the `JVal` type
(ordered association lists for objects); Python exceptions by the
`PyErr` type with `Except`; the botocore client, paginators and
jmespath result-path extraction are collaborators outside the
repository and are modelled as an oracle (`Client`) whose enumeration
answer is the post-path record list.  Provider requests issued by the
embedded code are collected in an explicit trace so that call-counting
properties can be stated.
-/

/-- A Python value as it appears in provider responses: strings,
integers, lists and (ordered) string-keyed dictionaries. -/
inductive JVal where
  | str : String → JVal
  | num : Int → JVal
  | arr : List JVal → JVal
  | obj : List (String × JVal) → JVal
  deriving Repr

mutual

/-- Structural (Python `==`) equality test on `JVal`. -/
def jvalBeq : JVal → JVal → Bool
  | .str a, .str b => a == b
  | .num a, .num b => a == b
  | .arr a, .arr b => jvalBeqList a b
  | .obj a, .obj b => jvalBeqObj a b
  | _, _ => false

/-- Elementwise equality test on lists of `JVal`. -/
def jvalBeqList : List JVal → List JVal → Bool
  | [], [] => true
  | a :: as, b :: bs => jvalBeq a b && jvalBeqList as bs
  | _, _ => false

/-- Entrywise equality test on ordered dictionaries of `JVal`. -/
def jvalBeqObj : List (String × JVal) → List (String × JVal) → Bool
  | [], [] => true
  | a :: as, b :: bs => (a.1 == b.1 && jvalBeq a.2 b.2) && jvalBeqObj as bs
  | _, _ => false

end

/-- The Python exceptions the embedded code can raise:  botocore
`ClientError` (carrying the provider error code), `AssertionError`,
`AttributeError`, `KeyError` and `TypeError`. -/
inductive PyErr where
  | clientError (code : String)
  | assertionError (msg : String)
  | attributeError (attr : String)
  | keyError (key : String)
  | typeError (msg : String)
  deriving DecidableEq, Repr

/-- Python truthiness of a `JVal` (empty string/list/dict and 0 are falsy). -/
def pyTruthy : JVal → Bool
  | .str s => !(s == "")
  | .num n => !(n == 0)
  | .arr l => !l.isEmpty
  | .obj l => !l.isEmpty

/-- Dictionary subscript `d[k]` on an object value: `KeyError` when the
key is absent, `TypeError` when the value is not a dictionary. -/
def JVal.getItem : JVal → String → Except PyErr JVal
  | .obj fields, k =>
    match fields.find? (fun p => p.1 == k) with
    | some p => .ok p.2
    | none => .error (.keyError k)
  | _, _ => .error (.typeError "not subscriptable")

/-- Keyword parameters of a provider request (`**params`): an ordered
string-keyed dictionary. -/
abbrev Params := List (String × JVal)

/-- `d[k] = v` on a parameter dictionary: overwrite in place if the key
is bound, append otherwise (Python dict insertion-order semantics). -/
def dictSet : Params → String → JVal → Params
  | [], k, v => [(k, v)]
  | p :: ps, k, v => if p.1 == k then (k, v) :: ps else p :: dictSet ps k v

/-- Dictionary lookup returning `none` for an absent key. -/
def dictGet : Params → String → Option JVal
  | [], _ => none
  | p :: ps, k => if p.1 == k then some p.2 else dictGet ps k

/-- `d.update(e)`: bind every key of `e` in `d`, overwriting existing
bindings (the semantics of `params.update(extra_args)`). -/
def dictUpdate (d e : Params) : Params :=
  e.foldl (fun acc p => dictSet acc p.1 p.2) d

/-- Modelled from the spec: `c7n.utils.chunks` is not under `src/`;
§4.2 describes it as partitioning a list into fixed-size chunks (the
last chunk may be shorter).  `batch` accumulates the current chunk in
reverse; a chunk is emitted whenever it reaches `size` elements. -/
def chunksAcc {α : Type} (size : Nat) : List α → List α → List (List α)
  | [], batch => if batch.isEmpty then [] else [batch.reverse]
  | x :: xs, batch =>
      if (batch.length + 1) % size == 0 then
        (x :: batch).reverse :: chunksAcc size xs []
      else chunksAcc size xs (x :: batch)

/-- Partition a list into chunks of `size` (the last may be shorter). -/
def chunksOf {α : Type} (size : Nat) (xs : List α) : List (List α) :=
  chunksAcc size xs []

/-- The chunks concatenate back to the pending batch plus the rest. -/
theorem chunksAcc_flatten {α : Type} (size : Nat) (xs batch : List α) :
    (chunksAcc size xs batch).flatten = batch.reverse ++ xs := by
  induction xs generalizing batch with
  | nil =>
    cases batch with
    | nil => simp [chunksAcc]
    | cons b bs => simp [chunksAcc]
  | cons x xs ih =>
    by_cases h : ((batch.length + 1) % size == 0) = true
    · simp [chunksAcc, h, ih]
    · simp [chunksAcc, h, ih]

/-- Python truthiness of an optional string attribute (`None` and the
empty string are falsy). -/
def optStrTruthy : Option String → Bool
  | none => false
  | some s => !(s == "")

mutual

/-- `jvalBeq` is reflexive (every value is `==` to itself). -/
theorem jvalBeq_refl : ∀ a : JVal, jvalBeq a a = true
  | .str s => by simp [jvalBeq]
  | .num n => by simp [jvalBeq]
  | .arr l => by rw [jvalBeq]; exact jvalBeqList_refl l
  | .obj l => by rw [jvalBeq]; exact jvalBeqObj_refl l

/-- `jvalBeqList` is reflexive. -/
theorem jvalBeqList_refl : ∀ l : List JVal, jvalBeqList l l = true
  | [] => by rw [jvalBeqList]
  | a :: as => by
      rw [jvalBeqList, jvalBeq_refl a, jvalBeqList_refl as]
      rfl

/-- `jvalBeqObj` is reflexive. -/
theorem jvalBeqObj_refl : ∀ l : List (String × JVal), jvalBeqObj l l = true
  | [] => by rw [jvalBeqObj]
  | a :: as => by
      rw [jvalBeqObj, jvalBeq_refl a.2, jvalBeqObj_refl as]
      simp

end

/-- The chunks concatenate back to the original list. -/
theorem chunksOf_flatten {α : Type} (n : Nat) (xs : List α) :
    (chunksOf n xs).flatten = xs := by
  simpa using chunksAcc_flatten n xs []

/-- Chunk count of `chunksAcc` with a pending batch shorter than a
chunk. -/
theorem chunksAcc_length {α : Type} (size : Nat) (hs : 0 < size)
    (xs batch : List α) (hb : batch.length < size) :
    (chunksAcc size xs batch).length
      = (batch.length + xs.length + size - 1) / size := by
  induction xs generalizing batch with
  | nil =>
    cases batch with
    | nil =>
      simp only [chunksAcc, List.isEmpty_nil, if_true, List.length_nil,
        Nat.zero_add, Nat.add_zero]
      rw [Nat.div_eq_of_lt (by omega)]
    | cons b bs =>
      simp only [chunksAcc, List.isEmpty_cons, if_false, List.length_cons,
        List.length_nil, Nat.add_zero, Bool.false_eq_true,
        List.length_singleton]
      simp only [List.length_cons] at hb
      have h1 : bs.length + 1 + size - 1 = bs.length + size := by omega
      rw [h1, Nat.add_div_right _ hs, Nat.div_eq_of_lt (by omega)]
  | cons x xs ih =>
    by_cases h : ((batch.length + 1) % size == 0) = true
    · have hdvd : size ∣ batch.length + 1 :=
        Nat.dvd_of_mod_eq_zero (by simpa using h)
      have hbs : batch.length + 1 = size :=
        Nat.le_antisymm (by omega) (Nat.le_of_dvd (by omega) hdvd)
      simp only [chunksAcc, h, if_true, List.length_cons,
        ih [] (by simpa using hs)]
      have h2 : batch.length + (xs.length + 1) + size - 1
          = xs.length + size - 1 + size := by omega
      have h3 : List.length ([] : List α) + xs.length + size - 1
          = xs.length + size - 1 := by simp
      rw [h3, h2, Nat.add_div_right _ hs]
    · have hbs : batch.length + 1 < size := by
        rcases Nat.lt_or_ge (batch.length + 1) size with h1 | h1
        · exact h1
        · have : batch.length + 1 = size := by omega
          rw [this] at h
          simp [Nat.mod_self] at h
      simp only [chunksAcc, h, if_false, Bool.false_eq_true,
        ih (x :: batch) hbs, List.length_cons]
      have h2 : batch.length + 1 + xs.length = batch.length + (xs.length + 1) := by
        omega
      rw [h2]

/-- A list of length `N` split into chunks of size `C > 0` yields
exactly `⌈N/C⌉ = (N + C - 1) / C` chunks. -/
theorem chunksOf_length {α : Type} (n : Nat) (xs : List α) (hn : 0 < n) :
    (chunksOf n xs).length = (xs.length + n - 1) / n := by
  have := chunksAcc_length n hn xs [] (by simpa using hn)
  simpa [chunksOf] using this

/-- The `(enum_op, path, extra_args)` triple of a descriptor's
`enum_spec` attribute. -/
structure EnumSpec where
  op : String
  path : Option String
  extra : Params
  deriving Repr

/-- A `(detail_op, param_name, param_key, detail_path)` quadruple: the
shape shared by `detail_spec` and `batch_detail_spec`. -/
structure DetailSpec where
  op : String
  param_name : String
  param_key : Option String
  path : Option String
  deriving Repr

/-- The static per-resource-kind `resource_type` descriptor class:
the attributes read by `ResourceQuery`, the sources, the augmentation
helpers and `QueryMeta`. -/
structure RModel where
  service : String
  enum_spec : EnumSpec
  id : String
  filter_name : Option String
  filter_type : Option String
  detail_spec : Option DetailSpec
  batch_detail_spec : Option DetailSpec
  dimension : Option String
  config_type : Option String
  taggable : Bool := true
  deriving Repr

/-- Which embedded call-site issued a provider request: the enumeration
call of `ResourceQuery.filter`, a detail call of the augmentation
helpers, or a config-service call. -/
inductive CallKind where
  | enum
  | detail
  | config
  deriving DecidableEq, Repr

/-- One request issued to the provider, as recorded in the trace. -/
structure ProviderCall where
  kind : CallKind
  op : String
  params : Params
  deriving Repr

/-- The botocore client collaborator (§6): `callOp` models
`getattr(client, op)(**params)` with pagination driven to completion
(`build_full_result`), and `pathSearch` models the external jmespath
library's `path.search` (returning `none` where Python gets `None`). -/
structure Client where
  callOp : String → Params → Except PyErr JVal
  pathSearch : String → JVal → Option JVal

/-- Coerce the extracted response data to a record list; the Python
code returns the data unchecked and a non-list would fail on first
iteration downstream, which the embedding surfaces here. -/
def asResourceList : JVal → Except PyErr (List JVal)
  | .arr l => .ok l
  | _ => .error (.typeError "not a resource list")

/-- `ResourceQuery.filter` (query.py:49-70): merge the descriptor's
static `extra_args` over the caller-supplied params (`params.update`),
issue the enumeration operation, apply the declared result path and
treat a `None` result as the empty list.  Returns the result together
with the trace of issued provider calls. -/
def ResourceQuery.filter (client : Client) (m : RModel) (params : Params) :
    Except PyErr (List JVal) × List ProviderCall :=
  let ps := if m.enum_spec.extra.isEmpty then params
            else dictUpdate params m.enum_spec.extra
  let call : ProviderCall := ⟨.enum, m.enum_spec.op, ps⟩
  match client.callOp m.enum_spec.op ps with
  | .error e => (.error e, [call])
  | .ok data =>
    if optStrTruthy m.enum_spec.path then
      match client.pathSearch (m.enum_spec.path.getD "") data with
      | none => (.ok [], [call])
      | some v => (asResourceList v, [call])
    else (asResourceList data, [call])

/-- The client-side identity filter
`[r for r in resources if r[m.id] in identities]` of
`ResourceQuery.get`; a record without the identity field raises
`KeyError` exactly as the subscript does. -/
def filterByIds (idField : String) (identities : List String) :
    List JVal → Except PyErr (List JVal)
  | [] => .ok []
  | r :: rs =>
    match r.getItem idField with
    | .error e => .error e
    | .ok v =>
      match filterByIds idField identities rs with
      | .error e => .error e
      | .ok rest =>
        if identities.any (fun i => jvalBeq v (JVal.str i)) then .ok (r :: rest)
        else .ok rest

/-- `ResourceQuery.get` (query.py:72-93): push `ids` down as a server
side filter parameter when the descriptor declares one (list form
directly, scalar form asserting exactly one id), otherwise enumerate
everything and filter client-side by identity-field membership. -/
def ResourceQuery.get (client : Client) (m : RModel) (identities : List String) :
    Except PyErr (List JVal) × List ProviderCall :=
  if optStrTruthy m.filter_name then
    let fn := m.filter_name.getD ""
    if m.filter_type == some "list" then
      ResourceQuery.filter client m [(fn, JVal.arr (identities.map JVal.str))]
    else if m.filter_type == some "scalar" then
      match identities with
      | [i] => ResourceQuery.filter client m [(fn, JVal.str i)]
      | _ => (.error (.assertionError "Scalar server side filter"), [])
    else
      ResourceQuery.filter client m []
  else
    let out := ResourceQuery.filter client m []
    match out.1 with
    | .error e => (.error e, out.2)
    | .ok rs =>
      match filterByIds m.id identities rs with
      | .error e => (.error e, out.2)
      | .ok sel => (.ok sel, out.2)

/-- The request value `param_key and r[param_key] or r` built for a
detail call: with a truthy `param_key`, the resource's sub-field (the
whole resource when that field is falsy); otherwise the resource
itself. -/
def pyParamItem (param_key : Option String) (r : JVal) : Except PyErr JVal :=
  if optStrTruthy param_key then
    match r.getItem (param_key.getD "") with
    | .error e => .error e
    | .ok v => if pyTruthy v then .ok v else .ok r
  else .ok r

/-- `d.pop(k)` on a response dictionary: the dictionary without `k`,
`KeyError` when `k` is absent, `AttributeError` on a non-dictionary. -/
def popField : JVal → String → Except PyErr JVal
  | .obj fields, k =>
    if fields.any (fun p => p.1 == k) then
      .ok (.obj (fields.filter (fun p => !(p.1 == k))))
    else .error (.keyError k)
  | _, _ => .error (.attributeError "pop")

/-- `d[k] = v` item assignment on a response value. -/
def setField : JVal → String → JVal → Except PyErr JVal
  | .obj fields, k, v => .ok (.obj (dictSet fields k v))
  | _, _, _ => .error (.typeError "item assignment")

/-- `r.update(response)`: merge the response dictionary's fields into
the resource record in place. -/
def updateFields : JVal → JVal → Except PyErr JVal
  | .obj rf, .obj sf => .ok (.obj (dictUpdate rf sf))
  | .obj _, _ => .error (.typeError "update argument")
  | _, _ => .error (.attributeError "update")

/-- One iteration of `_scalar_augment`'s loop (query.py:343-366): issue
the detail call for one resource, descend into the declared response
path (or strip the transport metadata envelope), and either synthesize
the identity field onto the response (no `param_key`) or merge the
detail into the resource record. -/
def scalarAugmentOne (client : Client) (m : RModel) (spec : DetailSpec)
    (r : JVal) : Except PyErr JVal × List ProviderCall :=
  match pyParamItem spec.param_key r with
  | .error e => (.error e, [])
  | .ok item =>
    let ps : Params := [(spec.param_name, item)]
    let call : ProviderCall := ⟨.detail, spec.op, ps⟩
    match client.callOp spec.op ps with
    | .error e => (.error e, [call])
    | .ok resp =>
      let step : Except PyErr JVal :=
        if optStrTruthy spec.path then resp.getItem (spec.path.getD "")
        else popField resp "ResponseMetadata"
      match step with
      | .error e => (.error e, [call])
      | .ok resp2 =>
        match spec.param_key with
        | none =>
          match setField resp2 m.id r with
          | .error e => (.error e, [call])
          | .ok merged => (.ok merged, [call])
        | some _ =>
          match updateFields r resp2 with
          | .error e => (.error e, [call])
          | .ok merged => (.ok merged, [call])

/-- `_scalar_augment` over one chunk: one detail call per resource, in
order, stopping at the first exception. -/
def scalarAugmentChunk (client : Client) (m : RModel) (spec : DetailSpec) :
    List JVal → Except PyErr (List JVal) × List ProviderCall
  | [] => (.ok [], [])
  | r :: rs =>
    let out := scalarAugmentOne client m spec r
    match out.1 with
    | .error e => (.error e, out.2)
    | .ok r2 =>
      let rest := scalarAugmentChunk client m spec rs
      match rest.1 with
      | .error e => (.error e, out.2 ++ rest.2)
      | .ok rest2 => (.ok (r2 :: rest2), out.2 ++ rest.2)

/-- The id list `[param_key and r[param_key] or r for r in resource_set]`
of `_batch_augment`. -/
def batchItems (param_key : Option String) :
    List JVal → Except PyErr (List JVal)
  | [] => .ok []
  | r :: rs =>
    match pyParamItem param_key r with
    | .error e => .error e
    | .ok v =>
      match batchItems param_key rs with
      | .error e => .error e
      | .ok vs => .ok (v :: vs)

/-- `_batch_augment` (query.py:329-340): one detail call per chunk with
the chunk's full id list as the request parameter, then the response's
declared detail path as the chunk result (subscripting with `None`
raises `KeyError` when no path is declared). -/
def batchAugmentChunk (client : Client) (spec : DetailSpec)
    (resource_set : List JVal) : Except PyErr (List JVal) × List ProviderCall :=
  match batchItems spec.param_key resource_set with
  | .error e => (.error e, [])
  | .ok items =>
    let ps : Params := [(spec.param_name, JVal.arr items)]
    let call : ProviderCall := ⟨.detail, spec.op, ps⟩
    match client.callOp spec.op ps with
    | .error e => (.error e, [call])
    | .ok resp =>
      let extracted : Except PyErr JVal :=
        match spec.path with
        | some p => resp.getItem p
        | none => .error (.keyError "None")
      match extracted with
      | .error e => (.error e, [call])
      | .ok v => (asResourceList v, [call])

/-- `w.map(_augment, chunks(...))` followed by
`list(itertools.chain(*results))`: every chunk's work is submitted to
the executor (so every chunk's provider calls are issued), the
per-chunk results are gathered in order, the first chunk exception is
re-raised at the gather, and the chunk results are flattened. -/
def runChunks (f : List JVal → Except PyErr (List JVal) × List ProviderCall) :
    List (List JVal) → Except PyErr (List JVal) × List ProviderCall
  | [] => (.ok [], [])
  | c :: cs =>
    let out := f c
    let rest := runChunks f cs
    match out.1 with
    | .error e => (.error e, out.2 ++ rest.2)
    | .ok xs =>
      match rest.1 with
      | .error e => (.error e, out.2 ++ rest.2)
      | .ok ys => (.ok (xs ++ ys), out.2 ++ rest.2)

/-- `DescribeSource.augment` (query.py:161-177): dispatch on which
detail spec is present — `detail_spec` first, else `batch_detail_spec`,
else return the resources unchanged — and run the chosen strategy over
fixed-size chunks through the executor. -/
def DescribeSource.augment (client : Client) (m : RModel) (chunk_size : Nat)
    (resources : List JVal) : Except PyErr (List JVal) × List ProviderCall :=
  match m.detail_spec with
  | some spec =>
      runChunks (scalarAugmentChunk client m spec) (chunksOf chunk_size resources)
  | none =>
    match m.batch_detail_spec with
    | some spec =>
        runChunks (batchAugmentChunk client spec) (chunksOf chunk_size resources)
    | none => (.ok resources, [])

/-- `DescribeSource.resources` (query.py:146-152): enumerate via
`ResourceQuery.filter`.  The manager-level `retry` attribute defaults
to `None`; the optional retry wrapper (`c7n.utils.get_retry`, a
collaborator) re-invokes the same call on throttling error codes and is
transparent against a non-throttling oracle, so it is not modelled. -/
def DescribeSource.resources (client : Client) (m : RModel) (query : Params) :
    Except PyErr (List JVal) × List ProviderCall :=
  ResourceQuery.filter client m query

/-- `DescribeSource.get_resources` (query.py:143-144). -/
def DescribeSource.get_resources (client : Client) (m : RModel)
    (ids : List String) : Except PyErr (List JVal) × List ProviderCall :=
  ResourceQuery.get client m ids

/-- The config-service client collaborator used by `ConfigSource`:
`listDiscovered` models the driven-to-completion
`list_discovered_resources` paginator (resource ids extracted), and
`configHistory` models `get_resource_config_history(resourceId, ...)`
for one id followed by the external `json.loads` decode and the
`camelResource` re-casing (`c7n.utils`, a collaborator), i.e. it
answers the normalized configuration record. -/
structure ConfigClient where
  listDiscovered : Option String → Except PyErr (List String)
  configHistory : Option String → String → Except PyErr JVal

/-- `ConfigSource.get_resources` (query.py:187-200): one sequential
config-history call per id; the first exception propagates. -/
def ConfigSource.get_resources (client : ConfigClient) (m : RModel) :
    List String → Except PyErr (List JVal)
  | [] => .ok []
  | i :: rest =>
    match client.configHistory m.config_type i with
    | .error e => .error e
    | .ok r =>
      match ConfigSource.get_resources client m rest with
      | .error e => .error e
      | .ok rs => .ok (r :: rs)

/-- The chunk-gathering loop of `ConfigSource.resources`
(query.py:217-225): one future per 50-id chunk; on a chunk exception
the code executes `self.log.error(...)`, but `ConfigSource` has no
`log` attribute (only `self.manager` does), so the handler itself
raises `AttributeError`; even with that attribute present,
`results.extend(f.result())` would re-raise the original exception
unconditionally. -/
def configGather (client : ConfigClient) (m : RModel) :
    List (List String) → Except PyErr (List JVal)
  | [] => .ok []
  | c :: cs =>
    match ConfigSource.get_resources client m c with
    | .error _ => .error (.attributeError "log")
    | .ok rs =>
      match configGather client m cs with
      | .error e => .error e
      | .ok rest => .ok (rs ++ rest)

/-- `ConfigSource.resources` (query.py:202-226): list the discovered
resource ids for the descriptor's `config_type`, then resolve detail in
50-id chunks through the executor. -/
def ConfigSource.resources (client : ConfigClient) (m : RModel) :
    Except PyErr (List JVal) :=
  match client.listDiscovered m.config_type with
  | .error e => .error e
  | .ok ids => configGather client m (chunksOf 50 ids)

/-- `ConfigSource.augment` (query.py:228-229): the identity. -/
def ConfigSource.augment (resources : List JVal) : List JVal :=
  resources

/-- The cache key built by the manager:
`{'region': ..., 'resource': class name, 'q': query}`; `q` is the query
exactly as passed, so `None` and `{}` are distinct keys. -/
structure CacheKey where
  region : String
  resource : String
  q : Option Params
  deriving Repr

/-- Equality of the `q` component (`None` only equals `None`). -/
def qBeq : Option Params → Option Params → Bool
  | none, none => true
  | some a, some b => jvalBeqObj a b
  | _, _ => false

/-- Structural equality of cache keys. -/
def keyBeq (a b : CacheKey) : Bool :=
  a.region == b.region && (a.resource == b.resource) && qBeq a.q b.q

/-- Modelled from the spec: the Cache collaborator (`c7n/cache.py` is
not under `src/`); §6 gives its contract — `load() -> bool` (backend
usable/warm), `get(key) -> Optional<ResourceList>`, `save(key, list)`
— and §5 requires that a save replaces the whole entry.  `loaded` is
the answer `load()` reports. -/
structure Cache where
  loaded : Bool
  entries : List (CacheKey × List JVal)

/-- Modelled from the spec: `Cache.get` returns the entry previously
saved under an equal key, `none` otherwise. -/
def cacheGet (c : Cache) (k : CacheKey) : Option (List JVal) :=
  match c.entries.find? (fun e => keyBeq e.1 k) with
  | some e => some e.2
  | none => none

/-- Modelled from the spec: `Cache.save` replaces the whole entry for
the key. -/
def cacheSave (c : Cache) (k : CacheKey) (v : List JVal) : Cache :=
  ⟨c.loaded, (k, v) :: c.entries.filter (fun e => !(keyBeq e.1 k))⟩

/-- The manager-level configuration a `QueryResourceManager` instance
carries: its region, its class name (both parts of the cache key), the
augmentation chunk size (class default 20), and the external filter
chain.  `filterChain` is modelled from the spec: `filter_resources`
lives in `c7n.manager.ResourceManager`, which is not under `src/`; §4.3
treats it as the (external) filter chain applied to a result list. -/
structure Manager where
  region : String
  className : String
  chunk_size : Nat := 20
  filterChain : List JVal → List JVal

/-- The cache key `resources`/`get_resources` build for a query. -/
def mkKey (mgr : Manager) (query : Option Params) : CacheKey :=
  ⟨mgr.region, mgr.className, query⟩

/-- `self._cache.load() and self._cache.get(key)`: consult the cache
only when its backend reports loaded. -/
def cacheLookup (cache : Cache) (key : CacheKey) : Option (List JVal) :=
  if cache.loaded then cacheGet cache key else none

/-- The guarded lookup of `get_resources`: also skipped when the caller
passes `cache=False`. -/
def cacheHit (useCache : Bool) (cache : Cache) (key : CacheKey) :
    Option (List JVal) :=
  if useCache then cacheLookup cache key else none

/-- A `Source` implementation as the manager consumes it: enumeration,
identity lookup and augmentation, each returning its result and the
trace of provider calls it issued. -/
structure SourceImpl where
  sres : Params → Except PyErr (List JVal) × List ProviderCall
  sget : List String → Except PyErr (List JVal) × List ProviderCall
  saug : List JVal → Except PyErr (List JVal) × List ProviderCall

/-- The registered `describe` source for a descriptor. -/
def describeSource (client : Client) (m : RModel) (chunk_size : Nat) :
    SourceImpl :=
  ⟨DescribeSource.resources client m,
   DescribeSource.get_resources client m,
   DescribeSource.augment client m chunk_size⟩

/-- `QueryResourceManager.resources` (query.py:272-290): build the
cache key from region, class name and the query as passed; on a warm
cache hit return the cached list through the filter chain; on a miss
normalize a `None` query to `{}`, enumerate through the source, augment
(the manager's `augment` delegates to `source.augment`,
query.py:310-316), save the augmented list and return it filtered. -/
def QueryResourceManager.resources (mgr : Manager) (src : SourceImpl)
    (cache : Cache) (query : Option Params) :
    Except PyErr (List JVal) × Cache × List ProviderCall :=
  let key := mkKey mgr query
  match cacheLookup cache key with
  | some rs => (.ok (mgr.filterChain rs), cache, [])
  | none =>
    let q := query.getD []
    let out := src.sres q
    match out.1 with
    | .error e => (.error e, cache, out.2)
    | .ok rs =>
      let aug := src.saug rs
      match aug.1 with
      | .error e => (.error e, cache, out.2 ++ aug.2)
      | .ok rs2 =>
        (.ok (mgr.filterChain rs2), cacheSave cache key rs2, out.2 ++ aug.2)

/-- A log record of the embedded code; only the warning of
`QueryResourceManager.get_resources` is observable in the claims. -/
inductive LogEntry where
  | warn (ids : List String) (err : PyErr)
  deriving DecidableEq, Repr

/-- `QueryResourceManager.get_resources` (query.py:292-308): cache key
with `q = None`; on a hit filter the cached set by identity-field
membership in `ids`; otherwise fetch through the source and augment,
catching a `ClientError` by logging a warning that carries the
requested ids and returning the empty list; any other exception
propagates. -/
def QueryResourceManager.get_resources (mgr : Manager) (src : SourceImpl)
    (m : RModel) (cache : Cache) (ids : List String) (useCache : Bool) :
    Except PyErr (List JVal) × List ProviderCall × List LogEntry :=
  let key := mkKey mgr none
  match cacheHit useCache cache key with
  | some rs =>
    match filterByIds m.id ids rs with
    | .error e => (.error e, [], [])
    | .ok sel => (.ok sel, [], [])
  | none =>
    let out := src.sget ids
    match out.1 with
    | .error (.clientError c) => (.ok [], out.2, [.warn ids (.clientError c)])
    | .error e => (.error e, out.2, [])
    | .ok rs =>
      let aug := src.saug rs
      match aug.1 with
      | .error (.clientError c) =>
          (.ok [], out.2 ++ aug.2, [.warn ids (.clientError c)])
      | .error e => (.error e, out.2 ++ aug.2, [])
      | .ok rs2 => (.ok rs2, out.2 ++ aug.2, [])

/-- The class attributes `QueryMeta.__new__` receives for a new
resource-manager class: the class name and its `resource_type`
descriptor (`none` models the falsy `""` default). -/
structure ClassAttrs where
  name : String
  resource_type : Option RModel

/-- What registration produces: the class with the registry content the
metaclass wired up. -/
structure RegisteredClass where
  name : String
  filters : List String
  retrySet : Bool
  tagsRegistered : Bool
  deriving DecidableEq, Repr

/-- `QueryMeta.__new__` (query.py:96-120): with a truthy
`resource_type`, resolve it (which succeeds for every descriptor
class), register the generic metrics filter when the descriptor has a
truthy `dimension`, and add retry/tag boilerplate for the `ec2`
service.  No attribute of the detail specs is inspected. -/
def QueryMeta.new (attrs : ClassAttrs) : Except PyErr RegisteredClass :=
  match attrs.resource_type with
  | none => .ok ⟨attrs.name, [], false, false⟩
  | some m =>
    let fs := if optStrTruthy m.dimension then ["metrics"] else []
    if m.service == "ec2" then .ok ⟨attrs.name, fs, true, m.taggable⟩
    else .ok ⟨attrs.name, fs, false, false⟩

/-- Number of enumeration calls in a trace. -/
def enumCount (t : List ProviderCall) : Nat :=
  (t.filter (fun c => c.kind == CallKind.enum)).length


/-- Setting a key makes lookup for that key return the new value. -/
theorem dictGet_dictSet_self (d : Params) (k : String) (v : JVal) :
    dictGet (dictSet d k v) k = some v := by
  induction d with
  | nil => simp [dictSet, dictGet]
  | cons p ps ih =>
    cases hp : p.1 == k
    · simp only [dictSet, hp, Bool.false_eq_true, if_false, dictGet]
      exact ih
    · simp [dictSet, dictGet, hp]

/-- Setting one key leaves lookups of other keys unchanged. -/
theorem dictGet_dictSet_ne (d : Params) (k k' : String) (v : JVal)
    (h : k ≠ k') : dictGet (dictSet d k' v) k = dictGet d k := by
  have hb : (k' == k) = false := beq_false_of_ne (fun e => h e.symm)
  induction d with
  | nil => simp [dictSet, dictGet, hb]
  | cons p ps ih =>
    cases hp : p.1 == k'
    · simp only [dictSet, hp, Bool.false_eq_true, if_false, dictGet]
      cases hq : p.1 == k
      · simpa [hq] using ih
      · simp [hq]
    · have hpk : (p.1 == k) = false := by
        rw [eq_of_beq hp]
        exact hb
      simp [dictSet, dictGet, hp, hpk, hb]

/-- Updating with a dictionary that does not bind `k` leaves lookups of
`k` unchanged. -/
theorem dictGet_dictUpdate_not_mem (e : Params) (d : Params) (k : String)
    (h : ∀ p ∈ e, k ≠ p.1) :
    dictGet (dictUpdate d e) k = dictGet d k := by
  induction e generalizing d with
  | nil => rfl
  | cons p ps ih =>
    have step : dictUpdate d (p :: ps) = dictUpdate (dictSet d p.1 p.2) ps := rfl
    rw [step, ih (dictSet d p.1 p.2) (fun q hq => h q (List.mem_cons_of_mem p hq)),
      dictGet_dictSet_ne d k p.1 p.2 (h p (List.mem_cons_self p ps))]

/-- After `d.update(e)`, every key bound by `e` (with distinct keys in
`e`) looks up to `e`'s value, regardless of `d`. -/
theorem dictGet_dictUpdate_of_mem (e : Params) (d : Params) (k : String)
    (v : JVal) (hnd : (e.map Prod.fst).Nodup) (h : dictGet e k = some v) :
    dictGet (dictUpdate d e) k = some v := by
  induction e generalizing d with
  | nil => simp [dictGet] at h
  | cons p ps ih =>
    have step : dictUpdate d (p :: ps) = dictUpdate (dictSet d p.1 p.2) ps := rfl
    rw [step]
    simp only [List.map_cons, List.nodup_cons] at hnd
    cases hp : p.1 == k
    · have h' : dictGet ps k = some v := by
        simp only [dictGet, hp, Bool.false_eq_true, if_false] at h
        exact h
      exact ih (dictSet d p.1 p.2) hnd.2 h'
    · have hpk : p.1 = k := eq_of_beq hp
      have hv : v = p.2 := by
        simp only [dictGet, hp, if_true] at h
        exact (Option.some.injEq _ _ ▸ h).symm
      have hnotin : ∀ q ∈ ps, k ≠ q.1 := by
        intro q hq he
        exact hnd.1 (by rw [hpk, he]; exact List.mem_map_of_mem Prod.fst hq)
      rw [dictGet_dictUpdate_not_mem ps _ k hnotin, ← hpk,
        dictGet_dictSet_self, hv]

/-- `ResourceQuery.filter` issues exactly one provider call: the
enumeration operation with the merged parameters. -/
theorem ResourceQuery.filter_trace (client : Client) (m : RModel)
    (params : Params) :
    (ResourceQuery.filter client m params).2 =
      [⟨CallKind.enum, m.enum_spec.op,
        if m.enum_spec.extra.isEmpty then params
        else dictUpdate params m.enum_spec.extra⟩] := by
  simp only [ResourceQuery.filter]
  cases h : client.callOp m.enum_spec.op
      (if m.enum_spec.extra.isEmpty then params
       else dictUpdate params m.enum_spec.extra) with
  | error e => simp [h]
  | ok data =>
    simp only [h]
    cases hp : optStrTruthy m.enum_spec.path
    · simp [hp]
    · simp only [hp, if_true]
      cases hq : client.pathSearch (m.enum_spec.path.getD "") data <;>
        simp [hq]

/-- Splitting a trace splits its enumeration-call count. -/
theorem enumCount_append (a b : List ProviderCall) :
    enumCount (a ++ b) = enumCount a + enumCount b := by
  simp [enumCount, List.filter_append]

/-- A scalar detail call is never an enumeration call. -/
theorem enumCount_scalarAugmentOne (client : Client) (m : RModel)
    (spec : DetailSpec) (r : JVal) :
    enumCount (scalarAugmentOne client m spec r).2 = 0 := by
  simp only [scalarAugmentOne]
  repeat' split
  all_goals rfl

/-- A scalar-strategy chunk issues no enumeration calls. -/
theorem enumCount_scalarAugmentChunk (client : Client) (m : RModel)
    (spec : DetailSpec) (ch : List JVal) :
    enumCount (scalarAugmentChunk client m spec ch).2 = 0 := by
  induction ch with
  | nil => rfl
  | cons r rs ih =>
    unfold scalarAugmentChunk
    cases h1 : (scalarAugmentOne client m spec r).1 with
    | error e =>
      simpa [h1] using enumCount_scalarAugmentOne client m spec r
    | ok r2 =>
      have := enumCount_scalarAugmentOne client m spec r
      cases h2 : (scalarAugmentChunk client m spec rs).1 <;>
        simp_all [enumCount_append]

/-- A batch-strategy chunk issues no enumeration calls. -/
theorem enumCount_batchAugmentChunk (client : Client) (spec : DetailSpec)
    (ch : List JVal) :
    enumCount (batchAugmentChunk client spec ch).2 = 0 := by
  simp only [batchAugmentChunk]
  repeat' split
  all_goals rfl

/-- A chunk runner whose worker issues no enumeration calls issues none. -/
theorem enumCount_runChunks
    (f : List JVal → Except PyErr (List JVal) × List ProviderCall)
    (hf : ∀ ch, enumCount (f ch).2 = 0) (chs : List (List JVal)) :
    enumCount (runChunks f chs).2 = 0 := by
  induction chs with
  | nil => rfl
  | cons c cs ih =>
    unfold runChunks
    cases h1 : (f c).1 with
    | error e => simp [h1, enumCount_append, hf c, ih]
    | ok xs =>
      cases h2 : (runChunks f cs).1 <;>
        simp [h1, h2, enumCount_append, hf c, ih]

/-- `DescribeSource.augment` issues only detail calls, never an
enumeration call. -/
theorem enumCount_augment (client : Client) (m : RModel) (cs : Nat)
    (rs : List JVal) :
    enumCount (DescribeSource.augment client m cs rs).2 = 0 := by
  unfold DescribeSource.augment
  cases m.detail_spec with
  | some spec =>
    exact enumCount_runChunks _ (enumCount_scalarAugmentChunk client m spec) _
  | none =>
    cases m.batch_detail_spec with
    | some spec =>
      exact enumCount_runChunks _ (enumCount_batchAugmentChunk client spec) _
    | none => rfl

/-- Cache keys are `beq`-reflexive. -/
theorem keyBeq_refl (k : CacheKey) : keyBeq k k = true := by
  have hq : qBeq k.q k.q = true := by
    cases hk : k.q with
    | none => rfl
    | some ps => simpa [qBeq] using jvalBeqObj_refl ps
  simp [keyBeq, hq]

/-- `save` stores an entry `get` finds again under the same key. -/
theorem cacheGet_save_self (c : Cache) (k : CacheKey) (v : List JVal) :
    cacheGet (cacheSave c k v) k = some v := by
  simp [cacheGet, cacheSave, List.find?, keyBeq_refl k]

/-- `save` under one key does not create an entry for a key that
compares unequal in both directions and was absent before. -/
theorem cacheGet_save_ne (c : Cache) (k k' : CacheKey) (v : List JVal)
    (hk : keyBeq k k' = false) (h : cacheGet c k' = none) :
    cacheGet (cacheSave c k v) k' = none := by
  simp only [cacheGet, cacheSave, List.find?, hk] at h ⊢
  cases hfind : c.entries.find? (fun e => keyBeq e.1 k') with
  | some e => rw [hfind] at h; exact absurd h (by simp)
  | none =>
    have hnone : ∀ e ∈ c.entries, ¬(keyBeq e.1 k') = true := by
      intro e he
      have := List.find?_eq_none.mp hfind
      simpa using this e he
    have : (c.entries.filter (fun e => !(keyBeq e.1 k))).find?
        (fun e => keyBeq e.1 k') = none := by
      apply List.find?_eq_none.mpr
      intro e he
      exact hnone e (List.mem_of_mem_filter he)
    rw [this]

/-- Saving never changes whether the cache reports loaded. -/
theorem cacheSave_loaded (c : Cache) (k : CacheKey) (v : List JVal) :
    (cacheSave c k v).loaded = c.loaded := rfl

/-- A trivial provider stub: every operation answers an empty record
list and path search finds nothing. -/
def stubClient : Client := ⟨fun _ _ => .ok (.arr []), fun _ _ => none⟩

/-- A minimal descriptor with no detail specs (the §8 scenario shape). -/
def kvModel : RModel :=
  ⟨"kv", ⟨"List", some "Items", []⟩, "Id", none, none, none, none,
   none, none, true⟩

/-- Claim C3: with neither `detail_spec` nor `batch_detail_spec` set,
`DescribeSource.augment` returns the resource list unchanged (and
issues no provider call), and `ConfigSource.augment` is the identity. -/
theorem claimC3 (client : Client) (m : RModel) (cs : Nat) (rs : List JVal)
    (h1 : m.detail_spec = none) (h2 : m.batch_detail_spec = none) :
    DescribeSource.augment client m cs rs = (.ok rs, []) ∧
    ConfigSource.augment rs = rs := by
  constructor
  · simp [DescribeSource.augment, h1, h2]
  · rfl

/-- Witness for C3 at a concrete descriptor and resource list. -/
theorem claimC3_witness :
    DescribeSource.augment stubClient kvModel 20 [JVal.obj [("Id", JVal.str "a")]]
      = (.ok [JVal.obj [("Id", JVal.str "a")]], []) ∧
    ConfigSource.augment [JVal.obj [("Id", JVal.str "a")]]
      = [JVal.obj [("Id", JVal.str "a")]] :=
  claimC3 stubClient kvModel 20 [JVal.obj [("Id", JVal.str "a")]] rfl rfl

/-- A scalar detail spec, for the descriptor that sets both specs. -/
def detailBoth : DetailSpec := ⟨"GetThing", "Id", none, some "Thing"⟩

/-- A batch detail spec, for the descriptor that sets both specs. -/
def batchBoth : DetailSpec := ⟨"GetThings", "Ids", none, some "Things"⟩

/-- A descriptor that sets `detail_spec` and `batch_detail_spec` at
once. -/
def mBoth : RModel :=
  ⟨"svc", ⟨"ListThings", some "Things", []⟩, "Id", none, none,
   some detailBoth, some batchBoth, none, none, true⟩

/-- The class attributes registering a manager class over `mBoth`. -/
def attrsBoth : ClassAttrs := ⟨"thing", some mBoth⟩

/-- A stub provider answering the scalar detail call of `mBoth`. -/
def clientBoth : Client :=
  ⟨fun _ _ => .ok (.obj [("Thing", .obj [("Color", .str "red")])]),
   fun _ _ => none⟩

/-- Counterexample to C2: the descriptor `mBoth` sets both detail
specs, yet `QueryMeta.__new__` registers its class without an error and
`DescribeSource.augment` does run on it, issuing a detail call. -/
theorem claimC2_counterexample :
    QueryMeta.new attrsBoth = .ok ⟨"thing", [], false, false⟩ ∧
    (DescribeSource.augment clientBoth mBoth 20 [JVal.str "i-1"]).2
      = [⟨CallKind.detail, "GetThing", [("Id", JVal.str "i-1")]⟩] := by
  exact ⟨rfl, rfl⟩

/-- Claim C2 (amended): a descriptor with both detail specs set is
accepted unchecked at registration, and at runtime `augment` dispatches
on `detail_spec` first, so the scalar strategy runs and
`batch_detail_spec` is ignored. -/
theorem claimC2 (attrs : ClassAttrs) (m : RModel) (ds : DetailSpec)
    (hm : attrs.resource_type = some m) (hds : m.detail_spec = some ds) :
    (∃ rc, QueryMeta.new attrs = .ok rc) ∧
    ∀ (client : Client) (cs : Nat) (rs : List JVal),
      DescribeSource.augment client m cs rs
        = runChunks (scalarAugmentChunk client m ds) (chunksOf cs rs) := by
  constructor
  · simp only [QueryMeta.new, hm]
    by_cases h : (m.service == "ec2") = true <;> simp [h]
  · intro client cs rs
    simp [DescribeSource.augment, hds]

/-- Witness for C2 at the concrete both-specs descriptor. -/
theorem claimC2_witness :
    (∃ rc, QueryMeta.new attrsBoth = .ok rc) ∧
    DescribeSource.augment clientBoth mBoth 20 [JVal.str "i-1"]
      = runChunks (scalarAugmentChunk clientBoth mBoth detailBoth)
          (chunksOf 20 [JVal.str "i-1"]) :=
  ⟨(claimC2 attrsBoth mBoth detailBoth rfl rfl).1,
   (claimC2 attrsBoth mBoth detailBoth rfl rfl).2 clientBoth 20 [JVal.str "i-1"]⟩

/-- A descriptor whose `enum_spec` carries a static extra parameter
binding the key `"K"`. -/
def mExtra : RModel :=
  ⟨"svc", ⟨"ListThings", none, [("K", JVal.str "fromDescriptor")]⟩, "Id",
   none, none, none, none, none, none, true⟩

/-- Counterexample to C4: the caller binds `"K"` too, but the request
actually issued carries the descriptor's value, not the caller's. -/
theorem claimC4_counterexample :
    (ResourceQuery.filter stubClient mExtra [("K", JVal.str "fromCaller")]).2
      = [⟨CallKind.enum, "ListThings", [("K", JVal.str "fromDescriptor")]⟩] ∧
    dictGet [("K", JVal.str "fromDescriptor")] "K"
      ≠ some (JVal.str "fromCaller") := by
  refine ⟨rfl, ?_⟩
  simp [dictGet]

/-- Claim C4 (amended): on a key collision between the descriptor's
static extra parameters and the caller-supplied query parameters, the
descriptor's value takes precedence in the issued request
(`params.update(extra_args)` overwrites the caller's binding). -/
theorem claimC4 (client : Client) (m : RModel) (params : Params)
    (k : String) (v : JVal)
    (hnd : (m.enum_spec.extra.map Prod.fst).Nodup)
    (hk : dictGet m.enum_spec.extra k = some v) :
    ∃ ps, (ResourceQuery.filter client m params).2
        = [⟨CallKind.enum, m.enum_spec.op, ps⟩] ∧ dictGet ps k = some v := by
  have hne : m.enum_spec.extra.isEmpty = false := by
    cases he : m.enum_spec.extra with
    | nil => rw [he] at hk; simp [dictGet] at hk
    | cons p ps => rfl
  refine ⟨dictUpdate params m.enum_spec.extra, ?_, ?_⟩
  · simp [ResourceQuery.filter_trace, hne]
  · exact dictGet_dictUpdate_of_mem _ _ _ _ hnd hk

/-- Witness for C4 at the concrete colliding key. -/
theorem claimC4_witness :
    ∃ ps, (ResourceQuery.filter stubClient mExtra [("K", JVal.str "fromCaller")]).2
        = [⟨CallKind.enum, mExtra.enum_spec.op, ps⟩]
        ∧ dictGet ps "K" = some (JVal.str "fromDescriptor") :=
  claimC4 stubClient mExtra [("K", JVal.str "fromCaller")] "K"
    (JVal.str "fromDescriptor") (by simp [mExtra]) rfl

/-- A descriptor declaring a scalar server-side filter. -/
def mScalar : RModel :=
  ⟨"svc", ⟨"Describe", none, []⟩, "Id", some "Name", some "scalar",
   none, none, none, none, true⟩

/-- Claim C9: under a scalar server-side filter, an ids list of exactly
one id is mapped onto the filter parameter of the enumeration request,
while any other length fails on the assertion with no provider call. -/
theorem claimC9 (client : Client) (m : RModel) (fn : String)
    (ids : List String)
    (hfn : m.filter_name = some fn) (hfn0 : fn ≠ "")
    (hft : m.filter_type = some "scalar") :
    (∀ i, ids = [i] →
        ResourceQuery.get client m ids
          = ResourceQuery.filter client m [(fn, JVal.str i)]) ∧
    (ids.length ≠ 1 →
        ResourceQuery.get client m ids
          = (.error (.assertionError "Scalar server side filter"), [])) := by
  have htr : optStrTruthy (some fn) = true := by
    simp [optStrTruthy, hfn0]
  have h1 : ((some "scalar" : Option String) == some "list") = false := by
    decide
  have h2 : ((some "scalar" : Option String) == some "scalar") = true := by
    decide
  constructor
  · rintro i rfl
    simp only [ResourceQuery.get, hfn, htr, if_true, hft, h1, h2,
      Bool.false_eq_true, if_false, Option.getD_some]
  · intro hlen
    simp only [ResourceQuery.get, hfn, htr, if_true, hft, h1, h2,
      Bool.false_eq_true, if_false]
    match ids, hlen with
    | [], _ => rfl
    | [i], hlen => exact absurd rfl hlen
    | i :: j :: rest, _ => rfl

/-- Witness for C9: both branches at concrete id lists. -/
theorem claimC9_witness :
    ResourceQuery.get stubClient mScalar ["a"]
      = ResourceQuery.filter stubClient mScalar [("Name", JVal.str "a")] ∧
    ResourceQuery.get stubClient mScalar ["a", "b"]
      = (.error (.assertionError "Scalar server side filter"), []) :=
  ⟨(claimC9 stubClient mScalar "Name" ["a"] rfl (by decide) rfl).1 "a" rfl,
   (claimC9 stubClient mScalar "Name" ["a", "b"] rfl (by decide) rfl).2
     (by decide)⟩

/-- A config-service stub discovering two ids, whose per-id detail call
raises for `"gone-2"` and answers for every other id. -/
def configStub : ConfigClient :=
  ⟨fun _ => .ok ["good-1", "gone-2"],
   fun _ i =>
     if i == "gone-2" then .error (.clientError "ResourceNotDiscovered")
     else .ok (.obj [("resourceId", JVal.str i)])⟩

/-- A descriptor carrying a `config_type`. -/
def mConfig : RModel :=
  ⟨"ec2", ⟨"DescribeInstances", some "Reservations", []⟩, "InstanceId",
   none, none, none, none, none, some "AWS::EC2::Instance", true⟩

/-- Claim C5 (code-bug evidence): with two discovered ids of which one
fails its detail resolution, `ConfigSource.resources` does not log and
continue — the failure handler touches the nonexistent `self.log`
attribute and the call errors out, returning neither sibling. -/
theorem claimC5 :
    ConfigSource.resources configStub mConfig
      = .error (.attributeError "log") := rfl

/-- A manager instance with an identity filter chain. -/
def mgrStub : Manager := ⟨"us-east-1", "thing", 20, fun rs => rs⟩

/-- A cache whose backend reports not loaded. -/
def emptyCache : Cache := ⟨false, []⟩

/-- A source whose fetches raise a provider `ClientError`. -/
def failSource : SourceImpl :=
  ⟨fun _ => (.error (.clientError "NotFound"), []),
   fun _ => (.error (.clientError "NotFound"), []),
   fun rs => (.ok rs, [])⟩

/-- Claim C6: when the cache misses (or is bypassed) and the source
fetch or the augmentation raises a provider `ClientError`,
`QueryResourceManager.get_resources` swallows it, logs one warning
carrying the requested ids, and returns the empty list. -/
theorem claimC6 (mgr : Manager) (src : SourceImpl) (m : RModel)
    (cache : Cache) (ids : List String) (useCache : Bool) (c : String)
    (hmiss : cacheHit useCache cache (mkKey mgr none) = none)
    (herr : (src.sget ids).1 = .error (.clientError c) ∨
        ∃ rs, (src.sget ids).1 = .ok rs ∧
          (src.saug rs).1 = .error (.clientError c)) :
    (QueryResourceManager.get_resources mgr src m cache ids useCache).1
      = .ok [] ∧
    (QueryResourceManager.get_resources mgr src m cache ids useCache).2.2
      = [LogEntry.warn ids (.clientError c)] := by
  rcases herr with h | ⟨rs, h1, h2⟩
  · constructor <;> simp [QueryResourceManager.get_resources, hmiss, h]
  · constructor <;> simp [QueryResourceManager.get_resources, hmiss, h1, h2]

/-- Witness for C6 at a concrete failing source. -/
theorem claimC6_witness :
    (QueryResourceManager.get_resources mgrStub failSource kvModel
        emptyCache ["i-1", "i-2"] true).1 = .ok [] ∧
    (QueryResourceManager.get_resources mgrStub failSource kvModel
        emptyCache ["i-1", "i-2"] true).2.2
      = [LogEntry.warn ["i-1", "i-2"] (.clientError "NotFound")] :=
  claimC6 mgrStub failSource kvModel emptyCache ["i-1", "i-2"] true
    "NotFound" rfl (Or.inl rfl)

/-- Does a request value mention the id `"gone-2"` (directly or inside
an id list)? -/
def hasGone2 : JVal → Bool
  | .str s => s == "gone-2"
  | .arr l => l.any (fun v => match v with | .str s => s == "gone-2" | _ => false)
  | _ => false

/-- The record for the id that exists. -/
def recExists : JVal := .obj [("Id", JVal.str "exists-1")]

/-- A provider stub raising not-found exactly when a request names
`"gone-2"`, and enumerating `recExists` otherwise. -/
def clientNotFound : Client :=
  ⟨fun _ ps =>
     if ps.any (fun p => hasGone2 p.2) then .error (.clientError "NotFound")
     else .ok (.obj [("Things", JVal.arr [recExists])]),
   fun p d => (d.getItem p).toOption⟩

/-- A descriptor declaring a list server-side filter. -/
def mList : RModel :=
  ⟨"elb", ⟨"DescribeThings", some "Things", []⟩, "Id", some "Names",
   some "list", none, none, none, none, true⟩

/-- Counterexample to C7: against the not-found-raising stub under a
list server-side filter, `get_resources(["exists-1","gone-2"])` returns
the empty list — not the one record for `exists-1`. -/
theorem claimC7_counterexample :
    (QueryResourceManager.get_resources mgrStub
        (describeSource clientNotFound mList 20) mList emptyCache
        ["exists-1", "gone-2"] true).1 = .ok [] ∧
    ¬ (QueryResourceManager.get_resources mgrStub
        (describeSource clientNotFound mList 20) mList emptyCache
        ["exists-1", "gone-2"] true).1 = .ok [recExists] := by
  constructor
  · rfl
  · intro h
    have h' : (Except.ok ([] : List JVal) : Except PyErr (List JVal))
        = .ok [recExists] := h
    simp at h'

/-- Claim C7 (amended): under a list server-side filter, when the
single shared request for the ids raises a provider `ClientError`, the
call raises no error to the caller: it logs a warning with both ids and
resolves to the empty list (the existing id's record is discarded along
with the missing one). -/
theorem claimC7 (mgr : Manager) (client : Client) (m : RModel) (cs : Nat)
    (cache : Cache) (ids : List String) (fn : String) (c : String)
    (hload : cache.loaded = false)
    (hfn : m.filter_name = some fn) (hfn0 : fn ≠ "")
    (hft : m.filter_type = some "list")
    (hclient : (ResourceQuery.filter client m
        [(fn, JVal.arr (ids.map JVal.str))]).1 = .error (.clientError c)) :
    QueryResourceManager.get_resources mgr (describeSource client m cs) m
        cache ids true
      = (.ok [],
         (ResourceQuery.filter client m [(fn, JVal.arr (ids.map JVal.str))]).2,
         [LogEntry.warn ids (.clientError c)]) := by
  have htr : optStrTruthy (some fn) = true := by simp [optStrTruthy, hfn0]
  have h1 : ((some "list" : Option String) == some "list") = true := by decide
  have hmiss : cacheHit true cache (mkKey mgr none) = none := by
    simp [cacheHit, cacheLookup, hload]
  simp only [QueryResourceManager.get_resources, hmiss, describeSource,
    DescribeSource.get_resources, ResourceQuery.get, hfn, htr, if_true,
    hft, h1, Option.getD_some, hclient]

/-- Witness for C7 at the concrete not-found stub. -/
theorem claimC7_witness :
    QueryResourceManager.get_resources mgrStub
        (describeSource clientNotFound mList 20) mList emptyCache
        ["exists-1", "gone-2"] true
      = (.ok [],
         (ResourceQuery.filter clientNotFound mList
           [("Names", JVal.arr (["exists-1", "gone-2"].map JVal.str))]).2,
         [LogEntry.warn ["exists-1", "gone-2"] (.clientError "NotFound")]) :=
  claimC7 mgrStub clientNotFound mList 20 emptyCache ["exists-1", "gone-2"]
    "Names" "NotFound" rfl rfl (by decide) rfl rfl

/-- When every resource's request value resolves, the batch id list is
the elementwise map. -/
theorem batchItems_map (pk : Option String) (item : JVal → JVal)
    (ch : List JVal) (h : ∀ r ∈ ch, pyParamItem pk r = .ok (item r)) :
    batchItems pk ch = .ok (ch.map item) := by
  induction ch with
  | nil => rfl
  | cons r rs ih =>
    simp only [batchItems, h r (List.mem_cons_self r rs),
      ih (fun q hq => h q (List.mem_cons_of_mem r hq)), List.map_cons]

/-- One batch chunk against a well-behaved provider: exactly one detail
call carrying the chunk's full id list, answered at the declared path. -/
theorem batchChunk_eval (client : Client) (dop pn dpath : String)
    (pk : Option String) (item : JVal → JVal) (out : List JVal → List JVal)
    (hresp : ∀ its : List JVal, client.callOp dop [(pn, JVal.arr its)]
        = .ok (.obj [(dpath, JVal.arr (out its))]))
    (ch : List JVal)
    (hitem : ∀ r ∈ ch, pyParamItem pk r = .ok (item r)) :
    batchAugmentChunk client ⟨dop, pn, pk, some dpath⟩ ch
      = (.ok (out (ch.map item)),
         [⟨CallKind.detail, dop, [(pn, JVal.arr (ch.map item))]⟩]) := by
  simp only [batchAugmentChunk, batchItems_map pk item ch hitem, hresp]
  simp [JVal.getItem, asResourceList]

/-- A chunk runner over uniformly succeeding chunks: the flattened
results in order, and one trace entry per chunk. -/
theorem runChunks_eval
    (f : List JVal → Except PyErr (List JVal) × List ProviderCall)
    (chs : List (List JVal)) (res : List JVal → List JVal)
    (tr : List JVal → ProviderCall)
    (h : ∀ ch ∈ chs, f ch = (.ok (res ch), [tr ch])) :
    runChunks f chs = (.ok (chs.map res).flatten, chs.map tr) := by
  induction chs with
  | nil => rfl
  | cons c cs ih =>
    simp only [runChunks, h c (List.mem_cons_self c cs),
      ih (fun q hq => h q (List.mem_cons_of_mem c hq)),
      List.map_cons, List.flatten_cons, List.singleton_append]

/-- Claim C8: under a `batch_detail_spec` with chunk size `C > 0` and a
provider answering one entry per requested id at the declared path,
augmenting `N` resources issues exactly `⌈N/C⌉` detail calls, each
carrying its chunk's full id list, and the flattened output has exactly
`N` entries. -/
theorem claimC8 (client : Client) (m : RModel) (dop pn dpath : String)
    (pk : Option String) (C : Nat) (hC : 0 < C) (rs : List JVal)
    (item : JVal → JVal) (out : List JVal → List JVal)
    (hm1 : m.detail_spec = none)
    (hm2 : m.batch_detail_spec = some ⟨dop, pn, pk, some dpath⟩)
    (hitem : ∀ r ∈ rs, pyParamItem pk r = .ok (item r))
    (hresp : ∀ its : List JVal, client.callOp dop [(pn, JVal.arr its)]
        = .ok (.obj [(dpath, JVal.arr (out its))]))
    (hlen : ∀ its : List JVal, (out its).length = its.length) :
    (DescribeSource.augment client m C rs).2
      = (chunksOf C rs).map
          (fun ch => ⟨CallKind.detail, dop, [(pn, JVal.arr (ch.map item))]⟩) ∧
    (DescribeSource.augment client m C rs).2.length = (rs.length + C - 1) / C ∧
    (DescribeSource.augment client m C rs).1
      = .ok ((chunksOf C rs).map (fun ch => out (ch.map item))).flatten ∧
    ∃ l, (DescribeSource.augment client m C rs).1 = .ok l
        ∧ l.length = rs.length := by
  have hmem : ∀ ch ∈ chunksOf C rs, ∀ r ∈ ch,
      pyParamItem pk r = .ok (item r) := by
    intro ch hch r hr
    apply hitem
    have hmem' : r ∈ (chunksOf C rs).flatten :=
      List.mem_flatten.mpr ⟨ch, hch, hr⟩
    rwa [chunksOf_flatten] at hmem'
  have haug : DescribeSource.augment client m C rs
      = runChunks (batchAugmentChunk client ⟨dop, pn, pk, some dpath⟩)
          (chunksOf C rs) := by
    simp [DescribeSource.augment, hm1, hm2]
  have hrun := runChunks_eval
    (batchAugmentChunk client ⟨dop, pn, pk, some dpath⟩) (chunksOf C rs)
    (fun ch => out (ch.map item))
    (fun ch => ⟨CallKind.detail, dop, [(pn, JVal.arr (ch.map item))]⟩)
    (fun ch hch => batchChunk_eval client dop pn dpath pk item out hresp ch
      (hmem ch hch))
  rw [haug, hrun]
  refine ⟨rfl, ?_, rfl, ?_⟩
  · simp [List.length_map, chunksOf_length C rs hC]
  · refine ⟨_, rfl, ?_⟩
    rw [List.length_flatten, List.map_map]
    have hcongr : ((chunksOf C rs).map
        (List.length ∘ fun ch => out (ch.map item)))
        = (chunksOf C rs).map List.length := by
      apply List.map_congr_left
      intro ch _
      simp [hlen]
    rw [hcongr, ← List.length_flatten, chunksOf_flatten]

/-- A batch-detail provider stub echoing the requested id list at the
declared path. -/
def batchClient : Client :=
  ⟨fun _ ps =>
     match ps with
     | [(_, JVal.arr its)] => .ok (.obj [("Things", JVal.arr its)])
     | _ => .error (.typeError "unexpected request shape"),
   fun _ _ => none⟩

/-- A descriptor declaring only a `batch_detail_spec`. -/
def mBatch : RModel :=
  ⟨"svc", ⟨"ListThings", some "Things", []⟩, "Id", none, none, none,
   some ⟨"GetThings", "Ids", none, some "Things"⟩, none, none, true⟩

/-- Witness for C8: three resources, chunk size two. -/
theorem claimC8_witness :
    (DescribeSource.augment batchClient mBatch 2
        [JVal.str "a", JVal.str "b", JVal.str "c"]).2
      = (chunksOf 2 [JVal.str "a", JVal.str "b", JVal.str "c"]).map
          (fun ch => ⟨CallKind.detail, "GetThings",
            [("Ids", JVal.arr (ch.map (fun r => r)))]⟩) ∧
    (DescribeSource.augment batchClient mBatch 2
        [JVal.str "a", JVal.str "b", JVal.str "c"]).2.length
      = ([JVal.str "a", JVal.str "b", JVal.str "c"].length + 2 - 1) / 2 ∧
    (DescribeSource.augment batchClient mBatch 2
        [JVal.str "a", JVal.str "b", JVal.str "c"]).1
      = .ok ((chunksOf 2 [JVal.str "a", JVal.str "b", JVal.str "c"]).map
          (fun ch => (fun its => its) (ch.map (fun r => r)))).flatten ∧
    ∃ l, (DescribeSource.augment batchClient mBatch 2
        [JVal.str "a", JVal.str "b", JVal.str "c"]).1 = .ok l
        ∧ l.length = [JVal.str "a", JVal.str "b", JVal.str "c"].length :=
  claimC8 batchClient mBatch "GetThings" "Ids" "Things" none 2 (by decide)
    [JVal.str "a", JVal.str "b", JVal.str "c"] (fun r => r) (fun its => its)
    rfl rfl (fun r _ => rfl) (fun its => rfl) (fun its => rfl)

/-- `resources` on a cache hit: the cached list through the filter
chain, no provider call, no save. -/
theorem managerResources_hit (mgr : Manager) (src : SourceImpl)
    (cache : Cache) (q : Option Params) (rs : List JVal)
    (hhit : cacheLookup cache (mkKey mgr q) = some rs) :
    QueryResourceManager.resources mgr src cache q
      = (.ok (mgr.filterChain rs), cache, []) := by
  simp only [QueryResourceManager.resources, hhit]

/-- `resources` on a miss whose enumeration fails: the error
propagates, nothing is saved. -/
theorem managerResources_miss_err (mgr : Manager) (src : SourceImpl)
    (cache : Cache) (q : Option Params) (e : PyErr)
    (hkl : cacheLookup cache (mkKey mgr q) = none)
    (hres : (src.sres (q.getD [])).1 = .error e) :
    QueryResourceManager.resources mgr src cache q
      = (.error e, cache, (src.sres (q.getD [])).2) := by
  simp only [QueryResourceManager.resources, hkl, hres]

/-- `resources` on a miss whose augmentation fails: the error
propagates, nothing is saved. -/
theorem managerResources_miss_aug_err (mgr : Manager) (src : SourceImpl)
    (cache : Cache) (q : Option Params) (rs : List JVal) (e : PyErr)
    (hkl : cacheLookup cache (mkKey mgr q) = none)
    (hres : (src.sres (q.getD [])).1 = .ok rs)
    (haug : (src.saug rs).1 = .error e) :
    QueryResourceManager.resources mgr src cache q
      = (.error e, cache, (src.sres (q.getD [])).2 ++ (src.saug rs).2) := by
  simp only [QueryResourceManager.resources, hkl, hres, haug]

/-- `resources` on a successful miss: enumerate, augment, save the
augmented list, return it filtered. -/
theorem managerResources_miss_ok (mgr : Manager) (src : SourceImpl)
    (cache : Cache) (q : Option Params) (rs rs2 : List JVal)
    (hkl : cacheLookup cache (mkKey mgr q) = none)
    (hres : (src.sres (q.getD [])).1 = .ok rs)
    (haug : (src.saug rs).1 = .ok rs2) :
    QueryResourceManager.resources mgr src cache q
      = (.ok (mgr.filterChain rs2), cacheSave cache (mkKey mgr q) rs2,
         (src.sres (q.getD [])).2 ++ (src.saug rs).2) := by
  simp only [QueryResourceManager.resources, hkl, hres, haug]

/-- The describe source's enumeration issues exactly one enumeration
call. -/
theorem enumCount_describe_sres (client : Client) (m : RModel) (cs : Nat)
    (q : Params) :
    enumCount ((describeSource client m cs).sres q).2 = 1 := by
  have htr : ((describeSource client m cs).sres q).2
      = [⟨CallKind.enum, m.enum_spec.op,
          if m.enum_spec.extra.isEmpty then q
          else dictUpdate q m.enum_spec.extra⟩] :=
    ResourceQuery.filter_trace client m q
  rw [htr]
  rfl

/-- Claim C1: with a warm cache (loaded, key initially absent) and a
successful first call, running `resources` twice issues exactly one
enumeration call in total — the second call replays the first call's
filtered result from the cache with no provider call, no new save, and
without consulting the source at all. -/
theorem claimC1 (mgr : Manager) (client : Client) (m : RModel) (cs : Nat)
    (cache : Cache) (q : Option Params) (rs₁ : List JVal)
    (hload : cache.loaded = true)
    (hmiss : cacheGet cache (mkKey mgr q) = none)
    (hok : (QueryResourceManager.resources mgr (describeSource client m cs)
        cache q).1 = .ok rs₁) :
    enumCount (QueryResourceManager.resources mgr
        (describeSource client m cs) cache q).2.2
      + enumCount (QueryResourceManager.resources mgr
          (describeSource client m cs)
          (QueryResourceManager.resources mgr (describeSource client m cs)
            cache q).2.1 q).2.2 = 1 ∧
    (QueryResourceManager.resources mgr (describeSource client m cs)
        (QueryResourceManager.resources mgr (describeSource client m cs)
          cache q).2.1 q).2.2 = [] ∧
    (QueryResourceManager.resources mgr (describeSource client m cs)
        (QueryResourceManager.resources mgr (describeSource client m cs)
          cache q).2.1 q).1
      = (QueryResourceManager.resources mgr (describeSource client m cs)
          cache q).1 ∧
    (QueryResourceManager.resources mgr (describeSource client m cs)
        (QueryResourceManager.resources mgr (describeSource client m cs)
          cache q).2.1 q).2.1
      = (QueryResourceManager.resources mgr (describeSource client m cs)
          cache q).2.1 ∧
    ∀ src' : SourceImpl,
      QueryResourceManager.resources mgr src'
          (QueryResourceManager.resources mgr (describeSource client m cs)
            cache q).2.1 q
        = QueryResourceManager.resources mgr (describeSource client m cs)
            (QueryResourceManager.resources mgr (describeSource client m cs)
              cache q).2.1 q := by
  have hkl : cacheLookup cache (mkKey mgr q) = none := by
    simp [cacheLookup, hload, hmiss]
  cases hres : ((describeSource client m cs).sres (q.getD [])).1 with
  | error e =>
    rw [managerResources_miss_err mgr _ cache q e hkl hres] at hok
    exact absurd hok (by simp)
  | ok rs =>
    cases haug : ((describeSource client m cs).saug rs).1 with
    | error e =>
      rw [managerResources_miss_aug_err mgr _ cache q rs e hkl hres haug]
        at hok
      exact absurd hok (by simp)
    | ok rs2 =>
      have hfirst := managerResources_miss_ok mgr (describeSource client m cs)
        cache q rs rs2 hkl hres haug
      have hhit2 : cacheLookup (cacheSave cache (mkKey mgr q) rs2)
          (mkKey mgr q) = some rs2 := by
        simp [cacheLookup, cacheSave_loaded, hload, cacheGet_save_self]
      rw [hfirst]
      simp only
      rw [managerResources_hit mgr (describeSource client m cs) _ q rs2 hhit2]
      refine ⟨?_, rfl, rfl, rfl, ?_⟩
      · rw [enumCount_append, enumCount_describe_sres]
        have h0 : enumCount ((describeSource client m cs).saug rs).2 = 0 :=
          enumCount_augment client m cs rs
        rw [h0]
        rfl
      · intro src'
        rw [managerResources_hit mgr src' _ q rs2 hhit2]

/-- Both directions of key disequality for the `None` and `{}` query
forms. -/
theorem keyBeq_none_empty (mgr : Manager) :
    keyBeq (mkKey mgr none) (mkKey mgr (some [])) = false ∧
    keyBeq (mkKey mgr (some [])) (mkKey mgr none) = false := by
  constructor <;> simp [keyBeq, mkKey, qBeq]

/-- Claim C10: `resources(None)` and `resources({})` perform the same
enumeration (same result, same issued requests), their cache keys are
distinct, and a result cached by either form is not returned to the
other form — the cross call still issues its own (single) enumeration
call identical to a cold call of that form. -/
theorem claimC10 (mgr : Manager) (client : Client) (m : RModel) (cs : Nat)
    (cache : Cache)
    (hload : cache.loaded = true)
    (h1 : cacheGet cache (mkKey mgr none) = none)
    (h2 : cacheGet cache (mkKey mgr (some [])) = none) :
    (QueryResourceManager.resources mgr (describeSource client m cs)
        cache none).1
      = (QueryResourceManager.resources mgr (describeSource client m cs)
          cache (some [])).1 ∧
    (QueryResourceManager.resources mgr (describeSource client m cs)
        cache none).2.2
      = (QueryResourceManager.resources mgr (describeSource client m cs)
          cache (some [])).2.2 ∧
    mkKey mgr none ≠ mkKey mgr (some []) ∧
    (QueryResourceManager.resources mgr (describeSource client m cs)
        (QueryResourceManager.resources mgr (describeSource client m cs)
          cache none).2.1 (some [])).2.2
      = (QueryResourceManager.resources mgr (describeSource client m cs)
          cache (some [])).2.2 ∧
    (QueryResourceManager.resources mgr (describeSource client m cs)
        (QueryResourceManager.resources mgr (describeSource client m cs)
          cache (some [])).2.1 none).2.2
      = (QueryResourceManager.resources mgr (describeSource client m cs)
          cache none).2.2 ∧
    enumCount (QueryResourceManager.resources mgr
        (describeSource client m cs) cache (some [])).2.2 = 1 := by
  have hklN : cacheLookup cache (mkKey mgr none) = none := by
    simp [cacheLookup, hload, h1]
  have hklE : cacheLookup cache (mkKey mgr (some [])) = none := by
    simp [cacheLookup, hload, h2]
  have hkeq := keyBeq_none_empty mgr
  have hkey : mkKey mgr none ≠ mkKey mgr (some []) := by
    intro h
    simp [mkKey] at h
  cases hres : ((describeSource client m cs).sres []).1 with
  | error e =>
    have hN := managerResources_miss_err mgr (describeSource client m cs)
      cache none e hklN hres
    have hE := managerResources_miss_err mgr (describeSource client m cs)
      cache (some []) e hklE hres
    rw [hN, hE]
    simp only
    refine ⟨trivial, rfl, hkey, trivial, ?_, ?_⟩
    · rw [hN]
    · exact enumCount_describe_sres client m cs _
  | ok rs =>
    cases haug : ((describeSource client m cs).saug rs).1 with
    | error e =>
      have hN := managerResources_miss_aug_err mgr
        (describeSource client m cs) cache none rs e hklN hres haug
      have hE := managerResources_miss_aug_err mgr
        (describeSource client m cs) cache (some []) rs e hklE hres haug
      rw [hN, hE]
      simp only
      have h0 : enumCount ((describeSource client m cs).saug rs).2 = 0 :=
        enumCount_augment client m cs rs
      refine ⟨trivial, rfl, hkey, trivial, ?_, ?_⟩
      · rw [hN]
      · rw [enumCount_append, enumCount_describe_sres client m cs, h0]
    | ok rs2 =>
      have hN := managerResources_miss_ok mgr (describeSource client m cs)
        cache none rs rs2 hklN hres haug
      have hE := managerResources_miss_ok mgr (describeSource client m cs)
        cache (some []) rs rs2 hklE hres haug
      have hklNE : cacheLookup (cacheSave cache (mkKey mgr none) rs2)
          (mkKey mgr (some [])) = none := by
        simp only [cacheLookup, cacheSave_loaded, hload, if_true]
        exact cacheGet_save_ne cache _ _ rs2 hkeq.1 h2
      have hklEN : cacheLookup (cacheSave cache (mkKey mgr (some [])) rs2)
          (mkKey mgr none) = none := by
        simp only [cacheLookup, cacheSave_loaded, hload, if_true]
        exact cacheGet_save_ne cache _ _ rs2 hkeq.2 h1
      have hcrossE := managerResources_miss_ok mgr
        (describeSource client m cs) (cacheSave cache (mkKey mgr none) rs2)
        (some []) rs rs2 hklNE hres haug
      have hcrossN := managerResources_miss_ok mgr
        (describeSource client m cs)
        (cacheSave cache (mkKey mgr (some [])) rs2) none rs rs2 hklEN hres
        haug
      rw [hN, hE]
      simp only
      have h0 : enumCount ((describeSource client m cs).saug rs).2 = 0 :=
        enumCount_augment client m cs rs
      refine ⟨trivial, rfl, hkey, ?_, ?_, ?_⟩
      · rw [hcrossE]
      · rw [hcrossN]
      · rw [enumCount_append, enumCount_describe_sres client m cs, h0]

/-- A cache whose backend reports loaded but which holds no entry yet. -/
def warmCache : Cache := ⟨true, []⟩

/-- Witness for C1 at a concrete manager, descriptor and stub client. -/
theorem claimC1_witness :
    enumCount (QueryResourceManager.resources mgrStub
        (describeSource stubClient kvModel 20) warmCache none).2.2
      + enumCount (QueryResourceManager.resources mgrStub
          (describeSource stubClient kvModel 20)
          (QueryResourceManager.resources mgrStub
            (describeSource stubClient kvModel 20) warmCache none).2.1
          none).2.2 = 1 ∧
    (QueryResourceManager.resources mgrStub
        (describeSource stubClient kvModel 20)
        (QueryResourceManager.resources mgrStub
          (describeSource stubClient kvModel 20) warmCache none).2.1
        none).2.2 = [] ∧
    (QueryResourceManager.resources mgrStub
        (describeSource stubClient kvModel 20)
        (QueryResourceManager.resources mgrStub
          (describeSource stubClient kvModel 20) warmCache none).2.1
        none).1
      = (QueryResourceManager.resources mgrStub
          (describeSource stubClient kvModel 20) warmCache none).1 ∧
    (QueryResourceManager.resources mgrStub
        (describeSource stubClient kvModel 20)
        (QueryResourceManager.resources mgrStub
          (describeSource stubClient kvModel 20) warmCache none).2.1
        none).2.1
      = (QueryResourceManager.resources mgrStub
          (describeSource stubClient kvModel 20) warmCache none).2.1 ∧
    ∀ src' : SourceImpl,
      QueryResourceManager.resources mgrStub src'
          (QueryResourceManager.resources mgrStub
            (describeSource stubClient kvModel 20) warmCache none).2.1
          none
        = QueryResourceManager.resources mgrStub
            (describeSource stubClient kvModel 20)
            (QueryResourceManager.resources mgrStub
              (describeSource stubClient kvModel 20) warmCache none).2.1
            none :=
  claimC1 mgrStub stubClient kvModel 20 warmCache none [] rfl rfl rfl

/-- Witness for C10 at a concrete manager, descriptor and stub client. -/
theorem claimC10_witness :
    (QueryResourceManager.resources mgrStub
        (describeSource stubClient kvModel 20) warmCache none).1
      = (QueryResourceManager.resources mgrStub
          (describeSource stubClient kvModel 20) warmCache (some [])).1 ∧
    (QueryResourceManager.resources mgrStub
        (describeSource stubClient kvModel 20) warmCache none).2.2
      = (QueryResourceManager.resources mgrStub
          (describeSource stubClient kvModel 20) warmCache (some [])).2.2 ∧
    mkKey mgrStub none ≠ mkKey mgrStub (some []) ∧
    (QueryResourceManager.resources mgrStub
        (describeSource stubClient kvModel 20)
        (QueryResourceManager.resources mgrStub
          (describeSource stubClient kvModel 20) warmCache none).2.1
        (some [])).2.2
      = (QueryResourceManager.resources mgrStub
          (describeSource stubClient kvModel 20) warmCache (some [])).2.2 ∧
    (QueryResourceManager.resources mgrStub
        (describeSource stubClient kvModel 20)
        (QueryResourceManager.resources mgrStub
          (describeSource stubClient kvModel 20) warmCache (some [])).2.1
        none).2.2
      = (QueryResourceManager.resources mgrStub
          (describeSource stubClient kvModel 20) warmCache none).2.2 ∧
    enumCount (QueryResourceManager.resources mgrStub
        (describeSource stubClient kvModel 20) warmCache (some [])).2.2 = 1 :=
  claimC10 mgrStub stubClient kvModel 20 warmCache rfl rfl rfl
